import Mathlib

/-!
Formal model of the image viewer/editor (`src/1.py`, class `ImageViewer`).

The embedding is shallow: the mutable attributes of the single `ImageViewer`
instance become a `ViewerState` record, and each method becomes a pure
function from state (plus any event data and external-environment data)
to state.  Python floats are modelled by `ℚ`, Python ints by `ℤ`/`ℕ`,
PIL images by `RImage` (a size together with an abstract pixel map),
and fallible paths by `Option`.  External library behaviour that the
program relies on only through its interface (PIL `resize` resampling,
`ImageDraw.line` rasterisation) is kept abstract as function parameters;
the parts of the interface the program depends on (e.g. `resize`
returning exactly the requested dimensions) are built into the model
because they are the documented PIL contract.
-/

namespace PCImageVE

/-- Truncating conversion of a rational to an integer, as Python's
`int()` does on a float: toward zero. -/
def pyInt (q : ℚ) : ℤ := if 0 ≤ q then ⌊q⌋ else ⌈q⌉

/-- Python list slice `l[:n]` (`n` may be negative, counting from the
end, saturating at the empty list). -/
def pySliceTo {α : Type} (l : List α) (n : ℤ) : List α :=
  if 0 ≤ n then l.take n.toNat else l.take ((l.length : ℤ) + n).toNat

/-- Python list indexing `l[i]` (negative indices count from the end;
out of range raises `IndexError`, modelled as `none`). -/
def pyGet {α : Type} (l : List α) (i : ℤ) : Option α :=
  if 0 ≤ i then l.get? i.toNat
  else if 0 ≤ (l.length : ℤ) + i then l.get? ((l.length : ℤ) + i).toNat
  else none

/-- A PIL image: pixel dimensions, a mode flag (`True` once the image is
in RGBA layout), and the pixel data as an abstract map from coordinates
to an opaque pixel value.  Channel re-layout under `convert("RGBA")` is
not observable by any property below, so `convert` only sets the flag. -/
structure RImage where
  width : ℕ
  height : ℕ
  mode_RGBA : Bool
  px : ℤ → ℤ → ℕ

/-- `Image.copy()`: a deep copy of a mutable buffer is the identity on
the immutable value. -/
def RImage.copy (img : RImage) : RImage := img

/-- `Image.convert("RGBA")`: same size, RGBA layout. -/
def RImage.convertRGBA (img : RImage) : RImage := { img with mode_RGBA := true }

/-- The recurring `if image.mode != 'RGBA': image = image.convert('RGBA')`. -/
def ensureRGBA (img : RImage) : RImage :=
  if img.mode_RGBA then img else img.convertRGBA

/-- A concrete all-zero RGBA test image, for witnesses. -/
def testImg (w h : ℕ) : RImage := ⟨w, h, true, fun _ _ => 0⟩

/-- Filesystem paths, as lists of components (`basename` is the last
component, `dirname` drops it). -/
abbrev FPath := List String

def basename (p : FPath) : String := p.getLastD ""

def dirname (p : FPath) : FPath := p.dropLast

/-- `ImageViewer.last_deleted_file`: the bookkeeping dict recorded by a
successful deletion, enabling one level of undo-of-delete. -/
structure DeletionRecord where
  path : FPath
  filename : String
  directory : FPath
  backup_path : FPath

/-- The two brush tools (`self.current_tool`). -/
inductive Tool
  | draw
  | blur
deriving DecidableEq

/-- The mutable attributes of the `ImageViewer` instance that the
modelled methods read or write.  `history_index` exists because
`paste_image` assigns to it (the constructor never initialises it and
nothing reads it); its initial value is irrelevant. -/
structure ViewerState where
  image : Option RImage
  drawing : Bool
  last_point : Option (ℚ × ℚ)
  brush_size : ℤ
  current_tool : Tool
  scale_factor : ℚ
  panning : Bool
  is_in_touch_mode : Bool
  history : List RImage
  current_step : ℤ
  history_index : ℤ
  current_image_path : Option FPath
  last_save_path : Option FPath
  image_list : List FPath
  current_image_index : ℤ
  last_deleted_file : Option DeletionRecord
  labelPixmapWH : Option (ℕ × ℕ)
  labelRectWH : ℕ × ℕ

/-- `self.min_scale = 0.1`. -/
def min_scale : ℚ := 1/10

/-- `self.max_scale = 5.0`. -/
def max_scale : ℚ := 5

/-- The attribute values set by `ImageViewer.__init__`. -/
def initViewerState : ViewerState where
  image := none
  drawing := false
  last_point := none
  brush_size := 20
  current_tool := Tool.draw
  scale_factor := 1
  panning := false
  is_in_touch_mode := false
  history := []
  current_step := -1
  history_index := -1
  current_image_path := none
  last_save_path := none
  image_list := []
  current_image_index := -1
  last_deleted_file := none
  labelPixmapWH := none
  labelRectWH := (0, 0)

/-! ## View transform (`scale_image`, pinch gesture) -/

/-- `ImageViewer.scale_image(factor)`: propose `scale_factor * factor`
and apply it only when it stays inside `[min_scale, max_scale]`
(no image means no change at all). -/
def scale_image (image_present : Bool) (scale_factor factor : ℚ) : ℚ :=
  if image_present then
    let new_scale := scale_factor * factor
    if min_scale ≤ new_scale ∧ new_scale ≤ max_scale then new_scale
    else scale_factor
  else scale_factor

/-- The scale update of the `GestureUpdated` branch of
`ImageViewer.gestureEvent`: `new_scale = pinch_start * totalScaleFactor`,
applied only inside the bounds, otherwise the current factor stays. -/
def pinch_new_scale (pinch_start totalScale current : ℚ) : ℚ :=
  let new_scale := pinch_start * totalScale
  if min_scale ≤ new_scale ∧ new_scale ≤ max_scale then new_scale
  else current

/-! ## History store (`add_to_history`, `undo`) -/

/-- `ImageViewer.add_to_history` on the `(history, current_step)` pair,
given the current image (the method does nothing when there is none):
advance the cursor, truncate any entries beyond it, append an RGBA copy. -/
def add_to_history (image : RImage) (history : List RImage)
    (current_step : ℤ) : List RImage × ℤ :=
  let step := current_step + 1
  let hist := if step < (history.length : ℤ) then pySliceTo history step else history
  (hist ++ [ensureRGBA image.copy], step)

/-- `add_to_history` lifted to the whole viewer state. -/
def addToHistoryV (st : ViewerState) : ViewerState :=
  match st.image with
  | none => st
  | some img =>
    let h := add_to_history img st.history st.current_step
    { st with history := h.1, current_step := h.2 }

/-- `ImageViewer.undo`: when the cursor is positive, step back and take a
copy of the entry now under it as the current image; otherwise nothing
happens.  An out-of-range cursor raises `IndexError` (`none`). -/
def undo (image : Option RImage) (history : List RImage)
    (current_step : ℤ) : Option (Option RImage × ℤ) :=
  if 0 < current_step then
    match pyGet history (current_step - 1) with
    | some entry => some (some entry.copy, current_step - 1)
    | none => none
  else some (image, current_step)

/-- `record` called once per element of `imgs`, left to right. -/
def recordAll (imgs : List RImage) (history : List RImage)
    (current_step : ℤ) : List RImage × ℤ :=
  imgs.foldl (fun acc i => add_to_history i acc.1 acc.2) (history, current_step)

/-- The spec's history invariant: empty history with cursor `-1`, or a
cursor inside the list. -/
def historyInv (history : List RImage) (current_step : ℤ) : Prop :=
  (history.length = 0 ∧ current_step = -1) ∨
  (0 ≤ current_step ∧ current_step < (history.length : ℤ))

instance (history : List RImage) (current_step : ℤ) :
    Decidable (historyInv history current_step) := by
  unfold historyInv
  infer_instance

/-! ## Display pipeline and coordinate mapper -/

/-- Qt's `QSize::scaled(tw, th, Qt.KeepAspectRatio)` applied to `(w, h)`:
the largest size with the same aspect ratio fitting in `(tw, th)`
(integer arithmetic as in Qt; a zero source size returns the target). -/
def qsizeScaled (w h tw th : ℕ) : ℕ × ℕ :=
  if w = 0 ∨ h = 0 then (tw, th)
  else if th * w / h ≤ tw then (th * w / h, th) else (tw, tw * h / w)

/-- The size of the pixmap built by `ImageViewer.display_image`: the
image converted to a pixmap and scaled to
`(int(width*scale), int(height*scale))` keeping the aspect ratio. -/
def scaledPixmapSize (W H : ℕ) (s : ℚ) : ℕ × ℕ :=
  qsizeScaled W H (pyInt ((W : ℚ) * s)).toNat (pyInt ((H : ℚ) * s)).toNat

/-- `ImageViewer.display_image`: rebuild the label pixmap from the
current image at the current scale and resize the label to it
(no image leaves the label untouched). -/
def display_image (st : ViewerState) : ViewerState :=
  match st.image with
  | none => st
  | some img =>
    let sz := scaledPixmapSize img.width img.height st.scale_factor
    { st with labelPixmapWH := some sz, labelRectWH := sz }

/-- The coordinate conversion of `ImageViewer.get_image_coordinates`,
over the data it reads: the current image dimensions, the label's pixmap
dimensions, the label geometry, and the scale factor.  A missing image
or pixmap returns `none`; a zero denominator raises `ZeroDivisionError`,
caught by the surrounding handler, hence also `none`.  The result is
clamped to `[0, dim - 1]` per axis before `int()`. -/
def map_to_image (imageWH : Option (ℕ × ℕ)) (pixmapWH : Option (ℕ × ℕ))
    (labelWH : ℕ × ℕ) (scale_factor : ℚ) (posx posy : ℚ) : Option (ℤ × ℤ) :=
  match imageWH, pixmapWH with
  | some iwh, some pwh =>
    if ((qsizeScaled pwh.1 pwh.2 labelWH.1 labelWH.2).1 : ℚ) * scale_factor = 0
      ∨ ((qsizeScaled pwh.1 pwh.2 labelWH.1 labelWH.2).2 : ℚ) * scale_factor = 0
    then none
    else
      some
        (pyInt (max 0 (min
          ((posx - ((labelWH.1 : ℚ)
              - ((qsizeScaled pwh.1 pwh.2 labelWH.1 labelWH.2).1 : ℚ)) / 2)
            * (iwh.1 : ℚ)
            / (((qsizeScaled pwh.1 pwh.2 labelWH.1 labelWH.2).1 : ℚ)
              * scale_factor))
          ((iwh.1 : ℚ) - 1))),
         pyInt (max 0 (min
          ((posy - ((labelWH.2 : ℚ)
              - ((qsizeScaled pwh.1 pwh.2 labelWH.1 labelWH.2).2 : ℚ)) / 2)
            * (iwh.2 : ℚ)
            / (((qsizeScaled pwh.1 pwh.2 labelWH.1 labelWH.2).2 : ℚ)
              * scale_factor))
          ((iwh.2 : ℚ) - 1))))
  | _, _ => none

/-- `ImageViewer.get_image_coordinates(pos)` on the viewer state. -/
def get_image_coordinates (st : ViewerState) (posx posy : ℚ) : Option (ℤ × ℤ) :=
  map_to_image (st.image.map fun i => (i.width, i.height))
    st.labelPixmapWH st.labelRectWH st.scale_factor posx posy

/-- The viewer state right after `display_image` has shown a `W × H`
image at scale `s` (the state read by a subsequent mouse event). -/
def displayedState (W H : ℕ) (s : ℚ) : ViewerState :=
  display_image { initViewerState with
    image := some (testImg W H), scale_factor := s }

/-! ## Raster editor (`apply_blur_at_point`, the draw branch of
`apply_effect`) -/

/-- `Image.crop((l, t, r, b))`: the sub-image of size `(r-l, b-t)` whose
pixel `(i, j)` is the source pixel `(l+i, t+j)`. -/
def RImage.crop (img : RImage) (l t r b : ℤ) : RImage :=
  { width := (r - l).toNat, height := (b - t).toNat,
    mode_RGBA := img.mode_RGBA,
    px := fun i j => img.px (l + i) (t + j) }

/-- `Image.resize((w, h))`: PIL returns an image of exactly the
requested size; the resampled pixel values are abstract, supplied by the
`resample` parameter. -/
def RImage.resize (resample : RImage → ℕ → ℕ → ℤ → ℤ → ℕ)
    (img : RImage) (w h : ℕ) : RImage :=
  { width := w, height := h, mode_RGBA := img.mode_RGBA,
    px := fun i j => resample img w h i j }

/-- `Image.paste(src, (l, t))`: in-place overwrite of the rectangle of
`dst` starting at `(l, t)` with `src`; the destination size never
changes. -/
def RImage.paste (dst src : RImage) (l t : ℤ) : RImage :=
  { dst with px := fun i j =>
      if l ≤ i ∧ i < l + (src.width : ℤ) ∧ t ≤ j ∧ j < t + (src.height : ℤ)
      then src.px (i - l) (j - t)
      else dst.px i j }

/-- The brush rectangle of `apply_blur_at_point`: `x ± brush_size`,
`y ± brush_size`, clamped to the image bounds. -/
def blurRegionBox (W H : ℕ) (x y brush_size : ℤ) : ℤ × ℤ × ℤ × ℤ :=
  (max 0 (x - brush_size), max 0 (y - brush_size),
   min (W : ℤ) (x + brush_size), min (H : ℤ) (y + brush_size))

/-- The blurred patch built inside `apply_blur_at_point`: crop the
region, force RGBA, downsample by 4 per axis (at least one pixel), and
resize back to the region's own size. -/
def blurredRegion (resample : RImage → ℕ → ℕ → ℤ → ℤ → ℕ)
    (img : RImage) (l t r b : ℤ) : RImage :=
  let region := ensureRGBA (img.crop l t r b)
  let down := region.resize resample
    (max 1 ((r - l).toNat / 4)) (max 1 ((b - t).toNat / 4))
  down.resize resample (r - l).toNat (b - t).toNat

/-- `ImageViewer.apply_blur_at_point(x, y)`: no image means no change;
otherwise force RGBA, clamp the brush rectangle, return unchanged when
the clamped region is degenerate, else paste the blurred patch back at
the region's top-left corner. -/
def apply_blur_at_point (resample : RImage → ℕ → ℕ → ℤ → ℤ → ℕ)
    (image : Option RImage) (x y brush_size : ℤ) : Option RImage :=
  match image with
  | none => none
  | some img0 =>
    let img1 := ensureRGBA img0
    let box := blurRegionBox img1.width img1.height x y brush_size
    if box.2.2.1 ≤ box.1 ∨ box.2.2.2 ≤ box.2.1 then some img1
    else
      some (img1.paste
        (blurredRegion resample img1 box.1 box.2.1 box.2.2.1 box.2.2.2)
        box.1 box.2.1)

/-- `ImageDraw.Draw(image).line([(p), (q)], fill=color, width=w)`:
in-place rasterisation of a stroke; which pixels the stroke covers is
abstract (the `raster` parameter), the image size never changes. -/
def draw_line (raster : ℤ × ℤ → ℤ × ℤ → ℤ → ℤ → ℤ → Bool) (color : ℕ)
    (img : RImage) (p q : ℤ × ℤ) (w : ℤ) : RImage :=
  { img with px := fun i j => if raster p q w i j then color else img.px i j }

/-! ## Mouse event pipeline (`apply_effect`, `mousePressEvent`) -/

/-- A raster operation issued on the image buffer during an event, for
tracing which draws a gesture performs. -/
inductive EffectCall
  | drawLine (lx ly x y : ℤ)
  | blurAt (x y : ℤ)
deriving DecidableEq

/-- `ImageViewer.apply_effect(pos)`: map the event position to image
coordinates (a `none` mapping ignores the event), force RGBA, then blur
at the point, or — with the draw tool — draw a line from the mapped
`last_point` (when one is recorded and maps successfully) to the mapped
position; finally redisplay.  The second component lists the raster
operations actually issued. -/
def apply_effect (resample : RImage → ℕ → ℕ → ℤ → ℤ → ℕ)
    (raster : ℤ × ℤ → ℤ × ℤ → ℤ → ℤ → ℤ → Bool) (color : ℕ)
    (st : ViewerState) (pos : ℚ × ℚ) : ViewerState × List EffectCall :=
  match st.image with
  | none => (st, [])
  | some img0 =>
    match get_image_coordinates st pos.1 pos.2 with
    | none => (st, [])
    | some (x, y) =>
      let img1 := ensureRGBA img0
      let st1 := { st with image := some img1 }
      match st1.current_tool with
      | Tool.blur =>
        let st2 := { st1 with
          image := apply_blur_at_point resample st1.image x y st1.brush_size }
        (display_image st2, [EffectCall.blurAt x y])
      | Tool.draw =>
        match st1.last_point with
        | none => (display_image st1, [])
        | some lp =>
          match get_image_coordinates st1 lp.1 lp.2 with
          | none => (display_image st1, [])
          | some (lx, ly) =>
            let st2 := { st1 with
              image := some (draw_line raster color img1 (lx, ly) (x, y)
                st1.brush_size) }
            (display_image st2, [EffectCall.drawLine lx ly x y])

/-- The left-button branch of `ImageViewer.mousePressEvent`: ignored in
touch mode or with no image; with Alt held it starts panning; otherwise
it sets `drawing`, records a history snapshot, stores the event position
as `last_point`, and calls `apply_effect` at that same position. -/
def mousePressEvent_left (resample : RImage → ℕ → ℕ → ℤ → ℤ → ℕ)
    (raster : ℤ × ℤ → ℤ × ℤ → ℤ → ℤ → ℤ → Bool) (color : ℕ)
    (altHeld : Bool) (st : ViewerState) (pos : ℚ × ℚ) :
    ViewerState × List EffectCall :=
  match st.image with
  | none => (st, [])
  | some _ =>
    if st.is_in_touch_mode then (st, [])
    else if altHeld then ({ st with panning := true }, [])
    else
      let st1 := { st with drawing := true }
      let st2 := addToHistoryV st1
      let st3 := { st2 with last_point := some pos }
      apply_effect resample raster color st3 pos

/-- The drawing branch of `ImageViewer.mouseMoveEvent` (not panning, not
touch mode, `drawing` set, image present): apply the effect at the new
position, then record it as `last_point`. -/
def mouseMoveEvent_draw (resample : RImage → ℕ → ℕ → ℤ → ℤ → ℕ)
    (raster : ℤ × ℤ → ℤ × ℤ → ℤ → ℤ → ℤ → Bool) (color : ℕ)
    (st : ViewerState) (pos : ℚ × ℚ) : ViewerState × List EffectCall :=
  if st.is_in_touch_mode then (st, [])
  else if st.drawing ∧ st.image.isSome then
    let r := apply_effect resample raster color st pos
    ({ r.1 with last_point := some pos }, r.2)
  else (st, [])

/-! ## Clipboard paste (`paste_image`) -/

/-- `ImageViewer.paste_image`: with no (valid) clipboard image the state
is untouched; otherwise the pasted RGBA buffer becomes the current
image, the scale factor is reset to `1.0`, `history` is emptied — but
the cursor assignment writes the otherwise-unused attribute
`history_index`, not `current_step` — then one snapshot is recorded and
the image redisplayed. -/
def paste_image (clip : Option RImage) (st : ViewerState) : ViewerState :=
  match clip with
  | none => st
  | some img =>
    let pasted := { img with mode_RGBA := true }
    let st1 := { st with
      image := some pasted
      scale_factor := 1
      history := []
      history_index := -1 }
    display_image (addToHistoryV st1)

/-! ## Deletion (`update_image_list`, `delete_current_image`)

Filesystem reads and the shell trash call are external: a `DeleteEnv`
supplies the directory scans (already name-sorted, as the listing
collaborator guarantees), whether the current file exists, the outcome
of the shell trash operation, and the image loaded from the successor
file.  The backup side effects are reported in `DeleteEffects`. -/

/-- The three ways the Windows-shell trash interaction can go:
`ParseName` returns no item, the COM call raises, or the delete
succeeds. -/
inductive TrashOutcome
  | itemNull
  | raiseErr
  | ok
deriving DecidableEq

/-- External-world data consumed by one run of `delete_current_image`. -/
structure DeleteEnv where
  tempDir : FPath
  fileExists : Bool
  preScan : List FPath
  trash : TrashOutcome
  postScan : List FPath
  loadedImage : RImage

/-- Backup-file side effects of one run of `delete_current_image`. -/
structure DeleteEffects where
  backupCreated : Bool
  backupRemoved : Bool
deriving DecidableEq

/-- The scan-and-locate core of `ImageViewer.update_image_list`: the
fresh directory listing becomes the image list, and the current path's
index is its exact position, else the position of the first entry with
the same filename, else `-1`. -/
def update_image_list_core (current : FPath) (scan : List FPath) :
    List FPath × ℤ :=
  let idx : ℤ :=
    match scan.indexOf? current with
    | some i => (i : ℤ)
    | none =>
      match scan.findIdx? (fun q => basename q = basename current) with
      | some i => (i : ℤ)
      | none => -1
  (scan, idx)

/-- `ImageViewer.update_image_list` on the viewer state. -/
def update_image_list (scan : List FPath) (st : ViewerState) : ViewerState :=
  match st.current_image_path with
  | none => { st with image_list := [], current_image_index := -1 }
  | some cur =>
    let r := update_image_list_core cur scan
    { st with image_list := r.1, current_image_index := r.2 }

/-- `ImageViewer.delete_current_image`.  No current path, or a current
path that no longer exists, only notifies (the list refresh of
`update_image_list` still happens).  Otherwise a backup copy of the file
is written to the temp directory and the shell trash call is attempted:
if `ParseName` yields no item the backup is removed again and nothing
else changes; if the call raises, the generic handler only notifies (the
backup file stays behind); on success the deletion is recorded, the
directory rescanned, and the sibling now at the deleted file's index (or
the new last sibling) is loaded — with none left, the viewer is cleared. -/
def delete_current_image (env : DeleteEnv) (st : ViewerState) :
    ViewerState × DeleteEffects :=
  match st.current_image_path with
  | none => (st, ⟨false, false⟩)
  | some cur =>
    let st1 := update_image_list env.preScan st
    if ¬ env.fileExists then (st1, ⟨false, false⟩)
    else
      let deleted_path := cur
      let filename := basename deleted_path
      let deleted_index : ℤ :=
        match st1.image_list.indexOf? deleted_path with
        | some i => (i : ℤ)
        | none => st1.current_image_index
      let backup_path : FPath := env.tempDir ++ ["image_backup_" ++ filename]
      match env.trash with
      | TrashOutcome.raiseErr => (st1, ⟨true, false⟩)
      | TrashOutcome.itemNull => (st1, ⟨true, true⟩)
      | TrashOutcome.ok =>
        let st2 := { st1 with
          last_deleted_file := some
            ⟨deleted_path, filename, dirname deleted_path, backup_path⟩
          image_list := env.postScan }
        if st2.image_list.length ≠ 0 then
          let idx : ℤ :=
            if deleted_index ≥ (st2.image_list.length : ℤ)
            then (st2.image_list.length : ℤ) - 1
            else deleted_index
          match pyGet st2.image_list idx with
          | none => ({ st2 with current_image_index := idx }, ⟨true, false⟩)
          | some next =>
            let st3 := { st2 with
              current_image_index := idx
              image := some env.loadedImage
              current_image_path := some next
              last_save_path := some next }
            (display_image (addToHistoryV st3), ⟨true, false⟩)
        else
          ({ st2 with
            image := none
            current_image_path := none
            current_image_index := -1 }, ⟨true, false⟩)

/-! ## Concrete instances used in closed statements -/

/-- A trivial resampling function (all pixels zero), standing in for a
concrete interpolation filter. -/
def resample0 : RImage → ℕ → ℕ → ℤ → ℤ → ℕ := fun _ _ _ _ _ => 0

/-- A trivial stroke-coverage predicate (covers nothing). -/
def raster0 : ℤ × ℤ → ℤ × ℤ → ℤ → ℤ → ℤ → Bool := fun _ _ _ _ _ => false

/-- The viewer after one image was opened (`open_image` records one
snapshot, the cursor sits at 0), about to receive a paste. -/
def pasteExampleState : ViewerState :=
  paste_image (some (testImg 4 4))
    { initViewerState with
      image := some (testImg 3 2)
      history := [testImg 3 2]
      current_step := 0 }

/-- An environment in which the shell trash call raises. -/
def deleteEnvRaise : DeleteEnv :=
  ⟨["tmp"], true, [["d", "a.png"], ["d", "b.png"]], TrashOutcome.raiseErr,
   [["d", "b.png"]], testImg 2 2⟩

/-- A viewer session with two sibling images, the first one current. -/
def deleteStateExample : ViewerState := { initViewerState with
  image := some (testImg 2 2)
  current_image_path := some ["d", "a.png"]
  image_list := [["d", "a.png"], ["d", "b.png"]]
  current_image_index := 0 }

/-! ## Helper lemmas -/

theorem pySliceTo_nil (n : ℤ) : pySliceTo ([] : List RImage) n = [] := by
  unfold pySliceTo
  split <;> simp

theorem ensureRGBA_width (img : RImage) : (ensureRGBA img).width = img.width := by
  unfold ensureRGBA RImage.convertRGBA
  split <;> rfl

theorem ensureRGBA_height (img : RImage) :
    (ensureRGBA img).height = img.height := by
  unfold ensureRGBA RImage.convertRGBA
  split <;> rfl

theorem display_image_scale_factor (st : ViewerState) :
    (display_image st).scale_factor = st.scale_factor := by
  unfold display_image
  cases st.image <;> rfl

theorem display_image_history (st : ViewerState) :
    (display_image st).history = st.history := by
  unfold display_image
  cases st.image <;> rfl

theorem display_image_current_step (st : ViewerState) :
    (display_image st).current_step = st.current_step := by
  unfold display_image
  cases st.image <;> rfl

theorem addToHistoryV_image (st : ViewerState) :
    (addToHistoryV st).image = st.image := by
  unfold addToHistoryV
  cases h : st.image <;> simp [h]

theorem addToHistoryV_labelPixmapWH (st : ViewerState) :
    (addToHistoryV st).labelPixmapWH = st.labelPixmapWH := by
  unfold addToHistoryV
  cases st.image <;> rfl

theorem addToHistoryV_labelRectWH (st : ViewerState) :
    (addToHistoryV st).labelRectWH = st.labelRectWH := by
  unfold addToHistoryV
  cases st.image <;> rfl

theorem addToHistoryV_scale_factor (st : ViewerState) :
    (addToHistoryV st).scale_factor = st.scale_factor := by
  unfold addToHistoryV
  cases st.image <;> rfl

theorem addToHistoryV_current_tool (st : ViewerState) :
    (addToHistoryV st).current_tool = st.current_tool := by
  unfold addToHistoryV
  cases st.image <;> rfl

theorem addToHistoryV_brush_size (st : ViewerState) :
    (addToHistoryV st).brush_size = st.brush_size := by
  unfold addToHistoryV
  cases st.image <;> rfl

/-! ## Claim theorems -/

/-- Claim C3: the scale factor always stays inside
`[min_scale, max_scale]`; a discrete zoom (`scale_image`) or a pinch
update whose proposed scale leaves the bounds keeps the current factor
unchanged (rejected, not clamped), and in particular zooming in by 1.1
from 4.8 proposes 5.28 and leaves the factor at 4.8. -/
theorem c3_scale_bounds (present : Bool) (s f pinch_start total cur : ℚ)
    (hs1 : min_scale ≤ s) (hs2 : s ≤ max_scale)
    (hc1 : min_scale ≤ cur) (hc2 : cur ≤ max_scale) :
    (min_scale ≤ scale_image present s f ∧ scale_image present s f ≤ max_scale)
    ∧ (¬ (min_scale ≤ s * f ∧ s * f ≤ max_scale) →
        scale_image present s f = s)
    ∧ (min_scale ≤ pinch_new_scale pinch_start total cur
        ∧ pinch_new_scale pinch_start total cur ≤ max_scale)
    ∧ (¬ (min_scale ≤ pinch_start * total ∧ pinch_start * total ≤ max_scale) →
        pinch_new_scale pinch_start total cur = cur)
    ∧ scale_image true (24/5) (11/10) = 24/5 := by
  refine ⟨?_, ?_, ?_, ?_, ?_⟩
  · by_cases h : min_scale ≤ s * f ∧ s * f ≤ max_scale
    · cases present <;> simp [scale_image, h, hs1, hs2]
    · cases present <;> simp [scale_image, h, hs1, hs2]
  · intro hout
    cases present <;> simp [scale_image, hout]
  · by_cases h : min_scale ≤ pinch_start * total ∧ pinch_start * total ≤ max_scale
    · simp [pinch_new_scale, h]
    · simp [pinch_new_scale, h, hc1, hc2]
  · intro hout
    simp [pinch_new_scale, hout]
  · have hno : ¬ (min_scale ≤ (24/5 : ℚ) * (11/10) ∧
        (24/5 : ℚ) * (11/10) ≤ max_scale) := by
      norm_num [min_scale, max_scale]
    simp [scale_image, hno]

/-- Witness for C3 at the concrete values of the claim: the current
factor 4.8 is in bounds, and zooming by 1.1 leaves it unchanged. -/
theorem c3_scale_bounds_witness :
    min_scale ≤ (24/5 : ℚ) ∧ (24/5 : ℚ) ≤ max_scale
    ∧ scale_image true (24/5) (11/10) = 24/5 := by
  have h := c3_scale_bounds true (24/5) (11/10) 1 1 1 (by norm_num [min_scale])
    (by norm_num [max_scale]) (by norm_num [min_scale]) (by norm_num [max_scale])
  exact ⟨by norm_num [min_scale], by norm_num [max_scale], h.2.2.2.2⟩

/-- Claim C2 is violated by `paste_image`: the reset writes the
otherwise-unused attribute `history_index` instead of `current_step`, so
pasting into a session whose history holds one entry with the cursor at
0 yields a one-entry history with the cursor at 1 — outside the claimed
invariant `0 ≤ current_step < len(history)`. -/
theorem c2_paste_breaks_history_invariant :
    pasteExampleState.history.length = 1
    ∧ pasteExampleState.current_step = 1
    ∧ ¬ historyInv pasteExampleState.history pasteExampleState.current_step := by
  refine ⟨rfl, rfl, ?_⟩
  decide

/-- Claim C8: pasting a valid clipboard image sets the scale factor to
exactly 1.0 and leaves the history holding exactly the freshly pasted
image, whatever the prior state was. -/
theorem c8_paste_resets_scale_and_history (st : ViewerState)
    (clip : Option RImage) (img : RImage) (hclip : clip = some img) :
    (paste_image clip st).scale_factor = 1
    ∧ (paste_image clip st).history = [{ img with mode_RGBA := true }] := by
  subst hclip
  unfold paste_image
  constructor
  · rw [display_image_scale_factor, addToHistoryV_scale_factor]
  · rw [display_image_history]
    unfold addToHistoryV add_to_history
    simp [pySliceTo_nil, ensureRGBA, RImage.copy]

/-- Witness for C8: pasting a 4×4 image into a zoomed session. -/
theorem c8_paste_resets_scale_and_history_witness :
    (paste_image (some (testImg 4 4))
        { initViewerState with scale_factor := 2 }).scale_factor = 1
    ∧ (paste_image (some (testImg 4 4))
        { initViewerState with scale_factor := 2 }).history
      = [{ testImg 4 4 with mode_RGBA := true }] :=
  c8_paste_resets_scale_and_history
    { initViewerState with scale_factor := 2 } (some (testImg 4 4))
    (testImg 4 4) rfl

theorem add_to_history_tip (img : RImage) (h : List RImage) (s : ℤ)
    (hs : s = (h.length : ℤ) - 1) :
    add_to_history img h s = (h ++ [ensureRGBA img.copy], (h.length : ℤ)) := by
  subst hs
  unfold add_to_history
  have h1 : (h.length : ℤ) - 1 + 1 = (h.length : ℤ) := by ring
  rw [h1]
  simp

theorem recordAll_tip (imgs : List RImage) :
    ∀ (h : List RImage) (s : ℤ), s = (h.length : ℤ) - 1 →
    (recordAll imgs h s).1.length = h.length + imgs.length
    ∧ (recordAll imgs h s).2 = (h.length : ℤ) + imgs.length - 1 := by
  induction imgs with
  | nil =>
    intro h s hs
    simp [recordAll, hs]
  | cons a as ih =>
    intro h s hs
    have hstep : recordAll (a :: as) h s
        = recordAll as (h ++ [ensureRGBA a.copy]) (h.length : ℤ) := by
      unfold recordAll
      simp only [List.foldl_cons]
      rw [add_to_history_tip a h s hs]
    rw [hstep]
    have := ih (h ++ [ensureRGBA a.copy]) (h.length : ℤ) (by simp)
    constructor
    · rw [this.1]
      simp
      omega
    · rw [this.2]
      simp only [List.length_append, List.length_cons, List.length_nil]
      push_cast
      ring

/-- Claim C4: starting from the empty history, N records with no
intervening undo leave N entries with the cursor at N-1; and from
history `[A, B, C]` with the cursor on C, `undo` moves the cursor to B
and a further record of `D` truncates the branch, yielding `[A, B, D]`
(`D` given in RGBA form, as every recorded snapshot is). -/
theorem c4_history_monotonicity (imgs : List RImage) (A B C D : RImage)
    (hD : D.mode_RGBA = true) :
    ((recordAll imgs [] (-1)).1.length = imgs.length
      ∧ (recordAll imgs [] (-1)).2 = (imgs.length : ℤ) - 1)
    ∧ undo (some C) [A, B, C] 2 = some (some B, 1)
    ∧ add_to_history D [A, B, C] 1 = ([A, B, D], 2) := by
  refine ⟨?_, ?_, ?_⟩
  · have := recordAll_tip imgs [] (-1) (by simp)
    simpa using this
  · rfl
  · unfold add_to_history pySliceTo
    norm_num
    simp [ensureRGBA, RImage.copy, hD, List.take_succ_cons]

/-- Witness for C4 with three concrete snapshots recorded and the
truncation example on concrete images. -/
theorem c4_history_monotonicity_witness :
    ((recordAll [testImg 1 1, testImg 2 2, testImg 3 3] [] (-1)).1.length = 3
      ∧ (recordAll [testImg 1 1, testImg 2 2, testImg 3 3] [] (-1)).2 = 2)
    ∧ undo (some (testImg 3 3)) [testImg 1 1, testImg 2 2, testImg 3 3] 2
        = some (some (testImg 2 2), 1)
    ∧ add_to_history (testImg 4 4) [testImg 1 1, testImg 2 2, testImg 3 3] 1
        = ([testImg 1 1, testImg 2 2, testImg 4 4], 2) :=
  c4_history_monotonicity [testImg 1 1, testImg 2 2, testImg 3 3]
    (testImg 1 1) (testImg 2 2) (testImg 3 3) (testImg 4 4) rfl

theorem pyInt_clamp_bounds (v : ℚ) (W : ℕ) (hW : 1 ≤ W) :
    0 ≤ pyInt (max 0 (min v ((W : ℚ) - 1)))
    ∧ pyInt (max 0 (min v ((W : ℚ) - 1))) ≤ (W : ℤ) - 1 := by
  set c : ℚ := max 0 (min v ((W : ℚ) - 1)) with hc
  have hc0 : 0 ≤ c := le_max_left _ _
  have hcW : c ≤ (W : ℚ) - 1 := by
    apply max_le
    · have : (1 : ℚ) ≤ (W : ℚ) := by exact_mod_cast hW
      linarith
    · exact min_le_right _ _
  have hfloor : pyInt c = ⌊c⌋ := by
    unfold pyInt
    exact if_pos hc0
  rw [hfloor]
  constructor
  · exact_mod_cast Int.le_floor.mpr (by exact_mod_cast hc0)
  · have h1 : ((W : ℚ) - 1) = (((W : ℤ) - 1 : ℤ) : ℚ) := by push_cast; ring
    have := Int.floor_le_floor (α := ℚ) hcW
    rwa [h1, Int.floor_intCast] at this

theorem qsizeScaled_fst_zero (pw ph lh : ℕ) :
    (qsizeScaled pw ph 0 lh).1 = 0 := by
  unfold qsizeScaled
  split_ifs with h1 h2
  · rfl
  · simpa using Nat.le_zero.mp h2
  · rfl

/-- Claim C5: whenever the mapper returns a coordinate it lies in
`[0, dimension - 1]` on each axis; and a missing image, a missing label
pixmap, a zero scale factor, or a zero-width label rectangle all yield
`none` (the zero denominator is guarded, mirroring the caught
`ZeroDivisionError`). -/
theorem c5_mapper_clamps_and_guards (st st2 : ViewerState) (img : RImage)
    (posx posy : ℚ)
    (himg : st.image = some img) (hW : 1 ≤ img.width) (hH : 1 ≤ img.height) :
    (∀ x y, get_image_coordinates st posx posy = some (x, y) →
        0 ≤ x ∧ x ≤ (img.width : ℤ) - 1 ∧ 0 ≤ y ∧ y ≤ (img.height : ℤ) - 1)
    ∧ (st2.image = none → get_image_coordinates st2 posx posy = none)
    ∧ (st.labelPixmapWH = none → get_image_coordinates st posx posy = none)
    ∧ (st.scale_factor = 0 → get_image_coordinates st posx posy = none)
    ∧ (st.labelRectWH.1 = 0 → get_image_coordinates st posx posy = none) := by
  refine ⟨?_, ?_, ?_, ?_, ?_⟩
  · intro x y hxy
    cases hpx : st.labelPixmapWH with
    | none =>
      rw [get_image_coordinates, himg, hpx] at hxy
      simp [map_to_image] at hxy
    | some pwh =>
      rw [get_image_coordinates, himg, hpx] at hxy
      simp only [Option.map_some'] at hxy
      rw [map_to_image] at hxy
      split at hxy
      · simp at hxy
      · simp only [Option.some_inj, Prod.mk.injEq] at hxy
        obtain ⟨hx, hy⟩ := hxy
        rw [← hx, ← hy]
        have bx := pyInt_clamp_bounds
          ((posx - ((st.labelRectWH.1 : ℚ)
              - ((qsizeScaled pwh.1 pwh.2 st.labelRectWH.1 st.labelRectWH.2).1 : ℚ)) / 2)
            * (img.width : ℚ)
            / (((qsizeScaled pwh.1 pwh.2 st.labelRectWH.1 st.labelRectWH.2).1 : ℚ)
              * st.scale_factor)) img.width hW
        have by' := pyInt_clamp_bounds
          ((posy - ((st.labelRectWH.2 : ℚ)
              - ((qsizeScaled pwh.1 pwh.2 st.labelRectWH.1 st.labelRectWH.2).2 : ℚ)) / 2)
            * (img.height : ℚ)
            / (((qsizeScaled pwh.1 pwh.2 st.labelRectWH.1 st.labelRectWH.2).2 : ℚ)
              * st.scale_factor)) img.height hH
        exact ⟨bx.1, bx.2, by'.1, by'.2⟩
  · intro h2
    unfold get_image_coordinates map_to_image
    rw [h2]
    rfl
  · intro hpx
    unfold get_image_coordinates map_to_image
    rw [himg, hpx]
    rfl
  · intro hsf
    unfold get_image_coordinates map_to_image
    rw [himg]
    cases hpx : st.labelPixmapWH with
    | none => rfl
    | some pwh =>
      obtain ⟨pw, ph⟩ := pwh
      simp [hsf]
  · intro hlr
    unfold get_image_coordinates map_to_image
    rw [himg]
    cases hpx : st.labelPixmapWH with
    | none => rfl
    | some pwh =>
      obtain ⟨pw, ph⟩ := pwh
      simp [hlr, qsizeScaled_fst_zero]

/-- Witness for C5 on a displayed 100×100 image at scale 1, with a
second state that has no image. -/
theorem c5_mapper_clamps_and_guards_witness :
    (displayedState 100 100 1).image = some (testImg 100 100)
    ∧ (∀ x y,
        get_image_coordinates (displayedState 100 100 1) 250 250 = some (x, y) →
        0 ≤ x ∧ x ≤ ((testImg 100 100).width : ℤ) - 1
          ∧ 0 ≤ y ∧ y ≤ ((testImg 100 100).height : ℤ) - 1)
    ∧ (initViewerState.image = none →
        get_image_coordinates initViewerState 250 250 = none) := by
  have h := c5_mapper_clamps_and_guards (displayedState 100 100 1)
    initViewerState (testImg 100 100) 250 250 rfl (by norm_num [testImg])
    (by norm_num [testImg])
  exact ⟨rfl, h.1, h.2.1⟩

/-- Claim C1 fails on the code: `display_image` hands the label a pixmap
that is already scaled, yet `get_image_coordinates` divides by
`scaled_size * scale_factor` — dividing by the scale twice.  For a
100×100 image at scale 2 the footprint is 200×200 with no centering
offset, so image point (50, 50) is displayed at label position
(100, 100); mapping that position back yields (25, 25), not (50, 50)
within ±1 pixel. -/
theorem mousePress_draw_calls (resample : RImage → ℕ → ℕ → ℤ → ℤ → ℕ)
    (raster : ℤ × ℤ → ℤ × ℤ → ℤ → ℤ → ℤ → Bool) (color : ℕ)
    (st : ViewerState) (img : RImage) (pos : ℚ × ℚ) (x y : ℤ)
    (himg : st.image = some img)
    (htouch : st.is_in_touch_mode = false)
    (htool : st.current_tool = Tool.draw)
    (hmap : get_image_coordinates st pos.1 pos.2 = some (x, y)) :
    (mousePressEvent_left resample raster color false st pos).2
      = [EffectCall.drawLine x y x y] := by
  have hmap' : map_to_image (some (img.width, img.height)) st.labelPixmapWH
      st.labelRectWH st.scale_factor pos.1 pos.2 = some (x, y) := by
    rw [get_image_coordinates, himg] at hmap
    simpa using hmap
  unfold mousePressEvent_left
  rw [himg]
  simp only [htouch, Bool.false_eq_true, if_false]
  unfold apply_effect
  simp only [addToHistoryV_image, addToHistoryV_labelPixmapWH,
    addToHistoryV_labelRectWH, addToHistoryV_scale_factor,
    addToHistoryV_current_tool, addToHistoryV_brush_size,
    get_image_coordinates, himg, htool, Option.map_some',
    ensureRGBA_width, ensureRGBA_height, hmap']

theorem scaledPixmapSize_100_1 : scaledPixmapSize 100 100 1 = (100, 100) := by
  unfold scaledPixmapSize pyInt
  norm_num [qsizeScaled]
  decide

theorem displayedState_100_1_gic (a b : ℚ) :
    get_image_coordinates (displayedState 100 100 1) a b
      = map_to_image (some (100, 100)) (some (100, 100)) (100, 100) 1 a b := by
  unfold displayedState display_image get_image_coordinates
  simp [initViewerState, testImg, scaledPixmapSize_100_1]

theorem map_100_1_small (a : ℚ) (n : ℤ) (h : a = (n : ℚ)) (h0 : 0 ≤ n)
    (h99 : n ≤ 99) :
    map_to_image (some (100, 100)) (some (100, 100)) (100, 100) 1 a a
      = some (n, n) := by
  subst h
  have hq0 : (0 : ℚ) ≤ (n : ℚ) := by exact_mod_cast h0
  have hq99 : (n : ℚ) ≤ 99 := by exact_mod_cast h99
  have hden : ¬ (((qsizeScaled 100 100 100 100).1 : ℚ) * 1 = 0
      ∨ ((qsizeScaled 100 100 100 100).2 : ℚ) * 1 = 0) := by
    norm_num [qsizeScaled]
  rw [map_to_image]
  rw [if_neg hden]
  have hclamp : max 0 (min ((n : ℚ)) (((100 : ℕ) : ℚ) - 1)) = (n : ℚ) := by
    have : min ((n : ℚ)) (((100 : ℕ) : ℚ) - 1) = (n : ℚ) := by
      apply min_eq_left
      push_cast
      linarith
    rw [this]
    exact max_eq_right hq0
  have hpy : pyInt ((n : ℚ)) = n := by
    unfold pyInt
    rw [if_pos hq0, Int.floor_intCast]
  norm_num [qsizeScaled] at hclamp ⊢
  rw [hclamp, hpy]

/-- The call list the very first pointer-down issues, on a freshly
displayed 100×100 image at scale 1, pressing at (10, 10) with the draw
tool and no previously recorded point: the code records `last_point`
before `apply_effect` runs, so the press already draws the degenerate
segment (10,10)–(10,10).  This refutes the claim that the first
pointer-down performs no draw on the image buffer. -/
theorem c6_first_press_draw_call_counterexample :
    (mousePressEvent_left resample0 raster0 7 false
        (displayedState 100 100 1) (10, 10)).2
      = [EffectCall.drawLine 10 10 10 10]
    ∧ (mousePressEvent_left resample0 raster0 7 false
        (displayedState 100 100 1) (10, 10)).2 ≠ [] := by
  have hmap : get_image_coordinates (displayedState 100 100 1)
      ((10 : ℚ), (10 : ℚ)).1 ((10 : ℚ), (10 : ℚ)).2 = some (10, 10) := by
    rw [show ((10 : ℚ), (10 : ℚ)).1 = (10 : ℚ) from rfl,
      show ((10 : ℚ), (10 : ℚ)).2 = (10 : ℚ) from rfl]
    rw [displayedState_100_1_gic]
    exact map_100_1_small 10 10 (by norm_num) (by norm_num) (by norm_num)
  have h := mousePress_draw_calls resample0 raster0 7
    (displayedState 100 100 1) (testImg 100 100) (10, 10) 10 10
    rfl rfl rfl hmap
  refine ⟨h, ?_⟩
  rw [h]
  simp

/-- Claim C6, amended: with the draw tool, a pointer-down first records
the event position as `last_point` and then applies the effect at that
same position, so the press itself already issues exactly one draw call
— the degenerate segment from the mapped point to itself; a segment
between two distinct recorded points is first drawn on the following
pointer-move, which draws from the previously recorded point to the
current one. -/
theorem c6_first_press_draws_degenerate_segment
    (resample : RImage → ℕ → ℕ → ℤ → ℤ → ℕ)
    (raster : ℤ × ℤ → ℤ × ℤ → ℤ → ℤ → ℤ → Bool) (color : ℕ)
    (st stm : ViewerState) (img imgm : RImage) (pos posm lp : ℚ × ℚ)
    (x y lx ly xm ym : ℤ)
    (himg : st.image = some img)
    (htouch : st.is_in_touch_mode = false)
    (htool : st.current_tool = Tool.draw)
    (hmap : get_image_coordinates st pos.1 pos.2 = some (x, y)) :
    (mousePressEvent_left resample raster color false st pos).2
      = [EffectCall.drawLine x y x y]
    ∧ (stm.image = some imgm → stm.is_in_touch_mode = false →
        stm.current_tool = Tool.draw → stm.drawing = true →
        stm.last_point = some lp →
        get_image_coordinates stm posm.1 posm.2 = some (xm, ym) →
        get_image_coordinates stm lp.1 lp.2 = some (lx, ly) →
        (mouseMoveEvent_draw resample raster color stm posm).2
          = [EffectCall.drawLine lx ly xm ym]) := by
  constructor
  · exact mousePress_draw_calls resample raster color st img pos x y
      himg htouch htool hmap
  · intro him ht htl hd hlp hm1 hm2
    have hm1' : map_to_image (some (imgm.width, imgm.height)) stm.labelPixmapWH
        stm.labelRectWH stm.scale_factor posm.1 posm.2 = some (xm, ym) := by
      rw [get_image_coordinates, him] at hm1
      simpa using hm1
    have hm2' : map_to_image (some (imgm.width, imgm.height)) stm.labelPixmapWH
        stm.labelRectWH stm.scale_factor lp.1 lp.2 = some (lx, ly) := by
      rw [get_image_coordinates, him] at hm2
      simpa using hm2
    unfold mouseMoveEvent_draw
    simp only [ht, Bool.false_eq_true, if_false, him, hd, Option.isSome_some,
      and_true, if_true]
    unfold apply_effect
    simp only [get_image_coordinates, him, htl, hlp, Option.map_some',
      ensureRGBA_width, ensureRGBA_height, hm1', hm2']

/-- Witness for the amended C6 on a displayed 100×100 image: the press
at (10, 10) issues the degenerate call, and a move to (20, 20) with
(10, 10) recorded draws the segment between the two mapped points. -/
theorem c6_first_press_draws_degenerate_segment_witness :
    (mousePressEvent_left resample0 raster0 7 false
        (displayedState 100 100 1) (10, 10)).2
      = [EffectCall.drawLine 10 10 10 10]
    ∧ (mouseMoveEvent_draw resample0 raster0 7
        { displayedState 100 100 1 with
          drawing := true
          last_point := some (10, 10) } (20, 20)).2
      = [EffectCall.drawLine 10 10 20 20] := by
  have hbase : ∀ a b : ℚ, get_image_coordinates
      { displayedState 100 100 1 with
        drawing := true
        last_point := some ((10 : ℚ), (10 : ℚ)) } a b
      = map_to_image (some (100, 100)) (some (100, 100)) (100, 100) 1 a b := by
    intro a b
    unfold displayedState display_image get_image_coordinates
    simp [initViewerState, testImg, scaledPixmapSize_100_1]
  have h := c6_first_press_draws_degenerate_segment resample0 raster0 7
    (displayedState 100 100 1)
    { displayedState 100 100 1 with
      drawing := true
      last_point := some (10, 10) }
    (testImg 100 100) (testImg 100 100) (10, 10) (20, 20) (10, 10)
    10 10 10 10 20 20
    rfl rfl rfl
    (by
      rw [show ((10 : ℚ), (10 : ℚ)).1 = (10 : ℚ) from rfl,
        show ((10 : ℚ), (10 : ℚ)).2 = (10 : ℚ) from rfl]
      rw [displayedState_100_1_gic]
      exact map_100_1_small 10 10 (by norm_num) (by norm_num) (by norm_num))
  refine ⟨h.1, h.2 rfl rfl rfl rfl rfl ?_ ?_⟩
  · rw [show ((20 : ℚ), (20 : ℚ)).1 = (20 : ℚ) from rfl,
      show ((20 : ℚ), (20 : ℚ)).2 = (20 : ℚ) from rfl]
    rw [hbase]
    exact map_100_1_small 20 20 (by norm_num) (by norm_num) (by norm_num)
  · rw [show ((10 : ℚ), (10 : ℚ)).1 = (10 : ℚ) from rfl,
      show ((10 : ℚ), (10 : ℚ)).2 = (10 : ℚ) from rfl]
    rw [hbase]
    exact map_100_1_small 10 10 (by norm_num) (by norm_num) (by norm_num)

/-- Claim C7: the brush rectangle is clamped to the image bounds; a
clamped rectangle with zero width or height makes the blur a no-op (only
the RGBA conversion that precedes the check is kept, which leaves every
pixel and both dimensions unchanged); otherwise the blurred patch is the
region downsampled to a quarter of its size per axis but never below one
pixel, upsampled back to the region's own size, and pasted at the
region's top-left corner — and at the corner pixel (0,0) with any radius
of at least 1 the region is non-degenerate, with strictly positive
dimensions. -/
theorem c7_blur_region_clamped_and_noop
    (resample : RImage → ℕ → ℕ → ℤ → ℤ → ℕ) (img0 : RImage)
    (x y b l t r bo : ℤ)
    (hW : 1 ≤ img0.width) (hH : 1 ≤ img0.height)
    (hx0 : 0 ≤ x) (hxW : x < (img0.width : ℤ))
    (hy0 : 0 ≤ y) (hyH : y < (img0.height : ℤ))
    (hbox : blurRegionBox img0.width img0.height x y b = (l, t, r, bo)) :
    (0 ≤ l ∧ r ≤ (img0.width : ℤ) ∧ 0 ≤ t ∧ bo ≤ (img0.height : ℤ))
    ∧ (r ≤ l ∨ bo ≤ t →
        apply_blur_at_point resample (some img0) x y b
          = some (ensureRGBA img0))
    ∧ (l < r → t < bo →
        apply_blur_at_point resample (some img0) x y b
          = some ((ensureRGBA img0).paste
              (blurredRegion resample (ensureRGBA img0) l t r bo) l t)
        ∧ (blurredRegion resample (ensureRGBA img0) l t r bo).width
            = (r - l).toNat
        ∧ (blurredRegion resample (ensureRGBA img0) l t r bo).height
            = (bo - t).toNat
        ∧ 1 ≤ max 1 ((r - l).toNat / 4) ∧ 1 ≤ max 1 ((bo - t).toNat / 4))
    ∧ (x = 0 → y = 0 → 1 ≤ b → l < r ∧ t < bo) := by
  have hl : l = max 0 (x - b) := by
    have := congrArg (fun p => p.1) hbox
    simpa [blurRegionBox] using this.symm
  have ht : t = max 0 (y - b) := by
    have := congrArg (fun p => p.2.1) hbox
    simpa [blurRegionBox] using this.symm
  have hr : r = min (img0.width : ℤ) (x + b) := by
    have := congrArg (fun p => p.2.2.1) hbox
    simpa [blurRegionBox] using this.symm
  have hbo : bo = min (img0.height : ℤ) (y + b) := by
    have := congrArg (fun p => p.2.2.2) hbox
    simpa [blurRegionBox] using this.symm
  have hbox' : blurRegionBox (ensureRGBA img0).width (ensureRGBA img0).height
      x y b = (l, t, r, bo) := by
    rw [ensureRGBA_width, ensureRGBA_height, hbox]
  refine ⟨⟨?_, ?_, ?_, ?_⟩, ?_, ?_, ?_⟩
  · rw [hl]; exact le_max_left _ _
  · rw [hr]; exact min_le_left _ _
  · rw [ht]; exact le_max_left _ _
  · rw [hbo]; exact min_le_left _ _
  · intro hdeg
    unfold apply_blur_at_point
    dsimp only
    rw [hbox']
    simp only [hdeg, if_true]
  · intro hlr htbo
    have hnot : ¬ (r ≤ l ∨ bo ≤ t) := by omega
    refine ⟨?_, rfl, rfl, le_max_left _ _, le_max_left _ _⟩
    unfold apply_blur_at_point
    dsimp only
    rw [hbox']
    simp only [hnot, if_false]
  · intro hx hy hb
    subst hx hy
    constructor
    · rw [hl, hr]
      omega
    · rw [ht, hbo]
      omega

/-- Witness for C7: a 5×5 image, blur centered at the corner (0,0) with
radius 2 — the clamped region is [0,2)×[0,2), non-degenerate, and the
blur pastes the resampled patch back. -/
theorem c7_blur_region_clamped_and_noop_witness :
    (0 ≤ (0 : ℤ) ∧ (2 : ℤ) ≤ ((testImg 5 5).width : ℤ)
      ∧ 0 ≤ (0 : ℤ) ∧ (2 : ℤ) ≤ ((testImg 5 5).height : ℤ))
    ∧ ((0 : ℤ) < 2 ∧ (0 : ℤ) < 2)
    ∧ apply_blur_at_point resample0 (some (testImg 5 5)) 0 0 2
        = some ((ensureRGBA (testImg 5 5)).paste
            (blurredRegion resample0 (ensureRGBA (testImg 5 5)) 0 0 2 2) 0 0) := by
  have h := c7_blur_region_clamped_and_noop resample0 (testImg 5 5)
    0 0 2 0 0 2 2 (by norm_num [testImg]) (by norm_num [testImg])
    (by norm_num) (by norm_num [testImg]) (by norm_num)
    (by norm_num [testImg]) (by decide)
  have h4 := h.2.2.2 rfl rfl (by norm_num)
  have h3 := h.2.2.1 h4.1 h4.2
  exact ⟨h.1, h4, h3.1⟩

/-- Claim C10: raster edits preserve the image's dimensions — a blur
(whatever its center, radius and resampling) returns an image of the
same width and height, the draw-line operation mutates pixels in place
without touching the size, and the blurred patch itself is produced at
exactly the cropped region's size before being pasted back. -/
theorem c10_raster_edits_preserve_dims
    (resample : RImage → ℕ → ℕ → ℤ → ℤ → ℕ)
    (raster : ℤ × ℤ → ℤ × ℤ → ℤ → ℤ → ℤ → Bool) (color : ℕ)
    (img img2 : RImage) (x y b : ℤ) (p q : ℤ × ℤ) (w l t r bo : ℤ)
    (hblur : apply_blur_at_point resample (some img) x y b = some img2) :
    (img2.width = img.width ∧ img2.height = img.height)
    ∧ ((draw_line raster color img p q w).width = img.width
        ∧ (draw_line raster color img p q w).height = img.height)
    ∧ ((blurredRegion resample img l t r bo).width = (r - l).toNat
        ∧ (blurredRegion resample img l t r bo).height = (bo - t).toNat) := by
  refine ⟨?_, ⟨rfl, rfl⟩, ⟨rfl, rfl⟩⟩
  unfold apply_blur_at_point at hblur
  dsimp only at hblur
  split at hblur
  · have h2 : img2 = ensureRGBA img := by
      simpa using hblur.symm
    rw [h2, ensureRGBA_width, ensureRGBA_height]
    exact ⟨rfl, rfl⟩
  · have h2 : img2 = (ensureRGBA img).paste
        (blurredRegion resample (ensureRGBA img)
          (blurRegionBox (ensureRGBA img).width (ensureRGBA img).height x y b).1
          (blurRegionBox (ensureRGBA img).width (ensureRGBA img).height x y b).2.1
          (blurRegionBox (ensureRGBA img).width (ensureRGBA img).height x y b).2.2.1
          (blurRegionBox (ensureRGBA img).width (ensureRGBA img).height x y b).2.2.2)
        (blurRegionBox (ensureRGBA img).width (ensureRGBA img).height x y b).1
        (blurRegionBox (ensureRGBA img).width (ensureRGBA img).height x y b).2.1 := by
      simpa using hblur.symm
    rw [h2]
    constructor
    · rw [show ∀ d s : RImage, ∀ a c : ℤ, (d.paste s a c).width = d.width
        from fun _ _ _ _ => rfl]
      rw [ensureRGBA_width]
    · rw [show ∀ d s : RImage, ∀ a c : ℤ, (d.paste s a c).height = d.height
        from fun _ _ _ _ => rfl]
      rw [ensureRGBA_height]

/-- Witness for C10 on the 5×5 test image: a radius-0 blur evaluates to
an image of the same size, and the draw-line and blurred-patch size
facts are instantiated on concrete calls. -/
theorem c10_raster_edits_preserve_dims_witness :
    apply_blur_at_point resample0 (some (testImg 5 5)) 1 1 0
        = some (testImg 5 5)
    ∧ (((testImg 5 5).width = (testImg 5 5).width
        ∧ (testImg 5 5).height = (testImg 5 5).height)
      ∧ ((draw_line raster0 7 (testImg 5 5) (1, 1) (2, 2) 3).width
            = (testImg 5 5).width
        ∧ (draw_line raster0 7 (testImg 5 5) (1, 1) (2, 2) 3).height
            = (testImg 5 5).height)
      ∧ ((blurredRegion resample0 (testImg 5 5) 0 0 2 2).width
            = ((2 : ℤ) - 0).toNat
        ∧ (blurredRegion resample0 (testImg 5 5) 0 0 2 2).height
            = ((2 : ℤ) - 0).toNat)) :=
  ⟨rfl, c10_raster_edits_preserve_dims resample0 raster0 7 (testImg 5 5)
    (testImg 5 5) 1 1 0 (1, 1) (2, 2) 3 0 0 2 2 rfl⟩

theorem c1_mapper_divides_by_scale_twice :
    get_image_coordinates (displayedState 100 100 2) 100 100 = some (25, 25)
    ∧ ¬ ((50 : ℤ) - 1 ≤ 25 ∧ (25 : ℤ) ≤ 50 + 1) := by
  refine ⟨?_, by decide⟩
  have h1 : scaledPixmapSize 100 100 2 = (200, 200) := by
    unfold scaledPixmapSize pyInt
    norm_num [qsizeScaled]
    decide
  unfold displayedState display_image
  simp only [initViewerState]
  norm_num [h1, get_image_coordinates, map_to_image, testImg, qsizeScaled, pyInt]

/-- Claim C9, as stated, fails on the code: when the shell trash call
raises (one of the two ways the platform delete can fail), the generic
exception handler only shows a notification — the backup file created
beforehand is not cleaned up. -/
theorem c9_raise_leaves_backup_counterexample :
    (delete_current_image deleteEnvRaise deleteStateExample).2.backupCreated
        = true
    ∧ ¬ (delete_current_image deleteEnvRaise
          deleteStateExample).2.backupRemoved = true := by
  constructor
  · rfl
  · intro h
    simp only [show (delete_current_image deleteEnvRaise
        deleteStateExample).2.backupRemoved = false from rfl] at h
    exact Bool.false_ne_true h

/-- Claim C9, amended: only the lookup failure (the shell item resolving
to nothing) cleans up the backup; it leaves the current image, current
path, deletion record, history and cursor unchanged, and leaves the
sibling list and index at the values of the directory rescan that the
method performs first — identical to the pre-operation values whenever
those were already up to date.  When the trash invocation raises
instead, the session state is equally unchanged but the backup file
stays behind. -/
theorem c9_itemnull_failure_cleans_backup (env : DeleteEnv)
    (st : ViewerState) (cur : FPath)
    (hcur : st.current_image_path = some cur)
    (hex : env.fileExists = true)
    (htrash : env.trash = TrashOutcome.itemNull) :
    (delete_current_image env st).2 = ⟨true, true⟩
    ∧ (delete_current_image env st).1.image = st.image
    ∧ (delete_current_image env st).1.current_image_path
        = st.current_image_path
    ∧ (delete_current_image env st).1.last_deleted_file
        = st.last_deleted_file
    ∧ (delete_current_image env st).1.history = st.history
    ∧ (delete_current_image env st).1.current_step = st.current_step
    ∧ (delete_current_image env st).1.image_list
        = (update_image_list_core cur env.preScan).1
    ∧ (delete_current_image env st).1.current_image_index
        = (update_image_list_core cur env.preScan).2
    ∧ (update_image_list_core cur env.preScan
          = (st.image_list, st.current_image_index) →
        (delete_current_image env st).1 = st) := by
  have hst1 : update_image_list env.preScan st
      = { st with
          image_list := (update_image_list_core cur env.preScan).1
          current_image_index := (update_image_list_core cur env.preScan).2 } := by
    unfold update_image_list
    rw [hcur]
  have hrun : delete_current_image env st
      = (update_image_list env.preScan st, ⟨true, true⟩) := by
    unfold delete_current_image
    rw [hcur]
    dsimp only
    rw [hex, htrash]
    simp
  rw [hrun, hst1]
  refine ⟨rfl, rfl, rfl, rfl, rfl, rfl, rfl, rfl, ?_⟩
  intro hup
  rw [hup]

/-- Witness for the amended C9: deleting `d/a.png` out of a two-image
directory with the shell item lookup failing removes the backup and
leaves the session as it was. -/
theorem c9_itemnull_failure_cleans_backup_witness :
    (delete_current_image
        { deleteEnvRaise with trash := TrashOutcome.itemNull }
        deleteStateExample).2 = ⟨true, true⟩
    ∧ (delete_current_image
        { deleteEnvRaise with trash := TrashOutcome.itemNull }
        deleteStateExample).1 = deleteStateExample := by
  have h := c9_itemnull_failure_cleans_backup
    { deleteEnvRaise with trash := TrashOutcome.itemNull }
    deleteStateExample ["d", "a.png"] rfl rfl rfl
  refine ⟨h.1, h.2.2.2.2.2.2.2.2 ?_⟩
  rfl

end PCImageVE
